import Mathlib

/-!
Shallow embedding of `django_cron/__init__.py` (moreplavec/django-cron).

Conventions of the embedding:
* Wall-clock time is measured in whole minutes since an arbitrary epoch
  (a `Nat`); a calendar day is 1440 minutes, so `t / 1440` is the date,
  `t % 1440 / 60` the hour and `t % 60` the minute of `t`.  The source
  reads the clock several times per call (`timezone.now()`,
  `datetime.now()`); a single instant per phase is used here.
* The run log (`CronJobLog.objects`) is a `List CronJobLog`; a saved row
  is appended at the end.
* Python exceptions are values of `PyExc`; a fallible step returns the
  escaping exception in an `Option PyExc` alongside its other results.
-/

set_option maxRecDepth 8000

namespace DjangoCron

/-- Modelled from the spec: the run-log row.  The source imports
`CronJobLog` from `django_cron.models`, which is not part of this
snapshot; fields follow spec section 3 (JobRunRecord): `code`,
`start_time`, `end_time`, `is_success`, `message`, and `ran_at_time`
(the fixed-time slot satisfied by the run, absent for interval runs). -/
structure CronJobLog where
  code : String
  start_time : Nat
  end_time : Option Nat := none
  is_success : Bool := false
  message : Option String := none
  ran_at_time : Option String := none
deriving DecidableEq, Repr

/-- Source lines 17-21: `Schedule.__init__` stores its three optional
knobs unchanged. -/
structure Schedule where
  run_every_mins : Option Nat := none
  run_at_times : List String := []
  retry_after_failure_mins : Option Nat := none
deriving DecidableEq, Repr

/-- Python truthiness of the optional integer
`schedule.retry_after_failure_mins` (line 68): `None` and `0` are falsy. -/
def optNatTruthy : Option Nat → Bool
  | none => false
  | some n => n != 0

/-- The ORM operations the manager issues against the run log.  The three
read operations correspond to source lines 64, 76 and 89; `save` to
line 130. -/
inductive DbOp where
  | latestByCode (code : String)
  | latestSuccessNonFixed (code : String)
  | existsForDaySlot (code : String) (midnight : Nat) (slot : String)
  | save (row : CronJobLog)
deriving DecidableEq, Repr

/-- Only `save` writes to the log. -/
def DbOp.isWrite : DbOp → Bool
  | .save _ => true
  | _ => false

/-- Effect of one operation on the stored log: reads leave it unchanged,
`save` appends the row. -/
def applyOp (log : List CronJobLog) : DbOp → List CronJobLog
  | .save r => log ++ [r]
  | _ => log

/-- Python exception values that can arise in the manager.  A job
exception is identified with its formatted traceback text, the result of
`"".join(traceback.format_exception(...))` at line 107-108. -/
inductive PyExc where
  | attributeError (attr : String)
  | invalidJobClass
  | valueError (s : String)
  | jobFailure (detail : String)
deriving DecidableEq, Repr

/-- Text of the formatted exception used at lines 107-108. -/
def formatExc : PyExc → String
  | .jobFailure detail => detail
  | .invalidJobClass =>
      "Exception: The cron_job to be run must be a subclass of CronJobBase"
  | .attributeError a => "AttributeError: " ++ a
  | .valueError s => "ValueError: " ++ s

/-- Hour of day of an absolute minute count (`datetime.now().hour`). -/
def hourOf (t : Nat) : Nat := t % 1440 / 60

/-- Minute of hour of an absolute minute count (`datetime.now().minute`). -/
def minuteOf (t : Nat) : Nat := t % 60

/-- Midnight of the calendar day of `t`, as an absolute minute count
(`datetime.today().date()` coerced for comparison against a datetime
column at line 89). -/
def midnightOf (t : Nat) : Nat := t / 1440 * 1440

/-- Split a character list on a separator, `str.split` style: the result
always has one more piece than there are separators. -/
def splitChar (sep : Char) : List Char → List (List Char)
  | [] => [[]]
  | c :: cs =>
    match splitChar sep cs with
    | [] => [[]]
    | h :: t => if c == sep then [] :: h :: t else (c :: h) :: t

/-- Value of a list of decimal digit characters. -/
def digitsToNat (l : List Char) : Nat :=
  l.foldl (fun n c => n * 10 + (c.toNat - '0'.toNat)) 0

/-- A nonempty, all-digit group of at most `k` characters, as `%H` / `%M`
accept. -/
def digitGroup (k : Nat) (l : List Char) : Bool :=
  !l.isEmpty && l.all (·.isDigit) && l.length ≤ k

/-- `time.strptime(s, "%H:%M")` (line 86), reduced to the fields the
comparison at line 88 can distinguish: the parsed (hour, minute) pair.
All other `struct_time` fields of two such values coincide, so the
tuple comparison of line 88 is the lexicographic order on this pair.
`none` models the `ValueError` raised on malformed input. -/
def parseHM (s : String) : Option (Nat × Nat) :=
  match splitChar ':' s.data with
  | [h, m] =>
    if digitGroup 2 h && digitGroup 2 m then
      let hv := digitsToNat h
      let mv := digitsToNat m
      if hv ≤ 23 && mv ≤ 59 then some (hv, mv) else none
    else none
  | _ => none

/-- `actual_time >= user_time` at line 88: lexicographic order on
(hour, minute). -/
def timeGE (a b : Nat × Nat) : Bool :=
  b.1 < a.1 || (a.1 == b.1 && b.2 ≤ a.2)

/-- Fold step of `latest('start_time')`: keep the row with the larger
`start_time`, the earlier row on a tie. -/
def latestStep (acc : Option CronJobLog) (r : CronJobLog) : Option CronJobLog :=
  match acc with
  | none => some r
  | some a => if a.start_time < r.start_time then some r else some a

/-- `qs.latest('start_time')` (lines 64 and 76): the row of the queryset
with maximal `start_time`, taking the earliest listed row on ties (the
ORM leaves ties backend-dependent); `none` models
`CronJobLog.DoesNotExist`. -/
def latestStart (l : List CronJobLog) : Option CronJobLog :=
  l.foldl latestStep none

/-- Python slice `s[i:]` with a possibly negative start index. -/
def pySliceFrom (s : String) (i : Int) : String :=
  if i < 0 then s.drop (s.length - (-i).toNat)
  else s.drop (min i.toNat s.length)

/-- Last `k` characters of `s` (all of `s` when `k` exceeds its length). -/
def strTakeRight (s : String) (k : Nat) : String :=
  s.drop (s.length - k)

/-- Source lines 84-93: the fixed-time loop.  Walks `run_at_times` in
configured order; line 84's truthiness test on the list is subsumed by
the empty case.  For each entry: parse it (line 86, a malformed entry
raises `ValueError`), compare the current time of day (line 88), and
when the slot has passed, query for a row of this code with this slot
and a `start_time` strictly after today's midnight (line 89).  An empty
queryset decides to run with `user_time` set to the slot (lines 90-92);
otherwise the loop continues.  The returned list is the trace of ORM
operations issued. -/
def runAtTimesLoop (code : String) (now : Nat) (log : List CronJobLog) :
    List String → Except PyExc (Bool × Option String) × List DbOp
  | [] => (.ok (false, none), [])
  | td :: rest =>
    match parseHM td with
    | none => (.error (.valueError td), [])
    | some ut =>
      if timeGE (hourOf now, minuteOf now) ut then
        let b := midnightOf now
        let op := DbOp.existsForDaySlot code b td
        let qset := log.filter fun r =>
          r.code == code && decide (b < r.start_time) && r.ran_at_time == some td
        if qset.isEmpty then (.ok (true, some td), [op])
        else
          let fx := runAtTimesLoop code now log rest
          (fx.1, op :: fx.2)
      else runAtTimesLoop code now log rest

/-- Source lines 74-93 once the retry branch has not returned: fetch the
most recent successful, non-fixed-time row for the code (line 76); if
none exists, run now (lines 82-83); if one exists, run now when the
interval has elapsed strictly (lines 79-81), and otherwise fall through
to the fixed-time loop (no `else` at line 81). -/
def intervalTail (sched : Schedule) (code : String) (m now : Nat)
    (log : List CronJobLog) : Except PyExc (Bool × Option String) × List DbOp :=
  let prev := latestStart (log.filter fun r =>
    r.code == code && r.is_success && r.ran_at_time == none)
  let op := DbOp.latestSuccessNonFixed code
  match prev with
  | some p =>
    if p.start_time + m < now then (.ok (true, none), [op])
    else
      let fx := runAtTimesLoop code now log sched.run_at_times
      (fx.1, op :: fx.2)
  | none => (.ok (true, none), [op])

/-- Source lines 50-93: `CronJobManager.should_run_now`.
`prev_user_time` is the manager's `user_time` attribute before the call
(a slot possibly left by an earlier invocation); line 56 overwrites it
with `None` before any rule runs, so the result never depends on it.
Order of rules: `force` (lines 57-58); when `run_every_mins` is not
`None` (line 59), the latest row for the code (lines 62-66) feeds the
retry branch (lines 67-72), which returns on a failed latest row with a
truthy `retry_after_failure_mins`; otherwise the normal interval check
and the fixed-time loop follow.  The result pairs the outcome (decision
and final `user_time`, or the escaping exception) with the trace of ORM
operations issued. -/
def should_run_now (sched : Schedule) (code : String)
    (_prev_user_time : Option String) (force : Bool) (now : Nat)
    (log : List CronJobLog) :
    Except PyExc (Bool × Option String) × List DbOp :=
  let user_time : Option String := none
  if force then (.ok (true, user_time), [])
  else
    match sched.run_every_mins with
    | some m =>
      let last_job := latestStart (log.filter fun r => r.code == code)
      let lop := DbOp.latestByCode code
      match last_job with
      | some lj =>
        if !lj.is_success && optNatTruthy sched.retry_after_failure_mins then
          let rm := sched.retry_after_failure_mins.getD 0
          if lj.start_time + rm < now then (.ok (true, user_time), [lop])
          else (.ok (false, user_time), [lop])
        else
          let t := intervalTail sched code m now log
          (t.1, lop :: t.2)
      | none =>
        let t := intervalTail sched code m now log
        (t.1, lop :: t.2)
    | none =>
      runAtTimesLoop code now log sched.run_at_times

/-- Source lines 101-135: `CronJobManager.__exit__`.  `msg_attr` is the
manager's `msg` attribute, `none` when it was never assigned — in that
case line 103 (`cron_msg = self.msg`) raises `AttributeError` and the
method aborts before anything else, so nothing is saved and the
attribute error escapes the `with` statement.  `user_time` is
`getattr(self, 'user_time', None)` of line 127 (an unset attribute and
one set to `None` both yield `none`).  Logging calls (lines 110-113,
132-133) carry no log state and the `silent` flag only gates them, so
they are not represented; the `try` around `cron_log.save()` only logs
on failure, and the save itself appends the row.  The result is the
exception escaping `__exit__`, if any, with the resulting log; a body
exception passed in `exc` is otherwise suppressed (`return True`,
line 135). -/
def exit_ (cron_log : CronJobLog) (msg_attr : Option String)
    (user_time : Option String) (exc : Option PyExc) (t2 : Nat)
    (log : List CronJobLog) : Option PyExc × List CronJobLog :=
  match msg_attr with
  | none => (some (.attributeError "msg"), log)
  | some cron_msg =>
    let row1 :=
      match exc with
      | some e =>
        let tb := formatExc e
        let msg :=
          if cron_msg != "" then
            let offset : Int := 1000 - (cron_msg.length : Int) - 5
            cron_msg ++ "\n...\n" ++ pySliceFrom tb (-offset)
          else pySliceFrom tb (-1000)
        { cron_log with is_success := false, message := some msg }
      | none => { cron_log with is_success := true, message := some cron_msg }
    let row2 := { row1 with ran_at_time := user_time, end_time := some t2 }
    (none, log ++ [row2])

/-- A job class handed to the manager: its class attributes `code` and
`schedule` (class docstring, lines 25-32), whether it is a subclass of
`CronJobBase` (line 142's check), and the behaviour of the instance's
`do()` — a returned message or a raised exception identified with its
formatted traceback text. -/
structure CronJobClass where
  code : String
  schedule : Schedule
  is_subclass : Bool
  do_ : Except String String
deriving Repr

/-- Manager attributes after the `run` method body: the exception
propagating out of `run` (if any), and the `msg` and `user_time`
attributes (`none` when never assigned / assigned `None`). -/
structure BodyResult where
  exc : Option PyExc
  msg : Option String
  user_time : Option String
deriving DecidableEq, Repr

/-- Source lines 137-149: the `run` method.  The subclass check at
lines 142-143 raises before the schedule is consulted; otherwise the
decision is evaluated (line 147) and, when it says to run, `self.msg`
is assigned the result of `do()` (line 149) — when `do()` raises, the
`msg` attribute is never assigned and the exception propagates out of
`run`.  The fresh manager has no `user_time` before the call, so `none`
is passed as the previous value. -/
def runBody (cls : CronJobClass) (force : Bool) (t1 : Nat)
    (log : List CronJobLog) : BodyResult :=
  if !cls.is_subclass then ⟨some .invalidJobClass, none, none⟩
  else
    match (should_run_now cls.schedule cls.code none force t1 log).1 with
    | .error e => ⟨some e, none, none⟩
    | .ok (d, ut) =>
      if d then
        match cls.do_ with
        | .ok m => ⟨none, some m, ut⟩
        | .error detail => ⟨some (.jobFailure detail), none, ut⟩
      else ⟨none, none, ut⟩

/-- Modelled from the spec: the documented invocation of the manager —
the class docstring (lines 37-42) states it is driven as a context
manager, `with CronJobManager(cls) as manager: manager.run(force)`, by
the repository's command layer, which is not part of this snapshot
(spec section 4.3 describes the combined lifecycle).  `__enter__`
(lines 95-99) builds the row with `code` and `start_time = t0`; the
body runs with the decision read at `t1`; `__exit__` finalises at `t2`
with the manager's attributes after the body.  The result is the
exception reaching the caller (if any) and the final log. -/
def runCron (cls : CronJobClass) (force : Bool) (t0 t1 t2 : Nat)
    (log : List CronJobLog) : Option PyExc × List CronJobLog :=
  let cron_log : CronJobLog := { code := cls.code, start_time := t0 }
  let b := runBody cls force t1 log
  exit_ cron_log b.msg b.user_time b.exc t2 log

/-! Helper lemmas about the traces and queries. -/

lemma runAtTimesLoop_reads (code : String) (now : Nat) (log : List CronJobLog) :
    ∀ ts, ∀ op ∈ (runAtTimesLoop code now log ts).2, op.isWrite = false := by
  intro ts
  induction ts with
  | nil => simp [runAtTimesLoop]
  | cons td rest ih =>
    intro op hop
    simp only [runAtTimesLoop] at hop
    cases hp : parseHM td with
    | none => rw [hp] at hop; simp at hop
    | some ut =>
      rw [hp] at hop
      by_cases ht : timeGE (hourOf now, minuteOf now) ut
      · simp only [ht, if_true] at hop
        by_cases hq : (log.filter fun r =>
            r.code == code && decide (midnightOf now < r.start_time) &&
              r.ran_at_time == some td).isEmpty
        · simp only [hq, if_true] at hop
          simp at hop
          subst hop; rfl
        · simp only [hq, if_false] at hop
          simp at hop
          rcases hop with h | h
          · subst h; rfl
          · exact ih op h
      · simp only [ht, if_false] at hop
        exact ih op hop

lemma intervalTail_reads (sched : Schedule) (code : String) (m now : Nat)
    (log : List CronJobLog) :
    ∀ op ∈ (intervalTail sched code m now log).2, op.isWrite = false := by
  intro op hop
  simp only [intervalTail] at hop
  cases hprev : latestStart (log.filter fun r =>
      r.code == code && r.is_success && r.ran_at_time == none) with
  | none => rw [hprev] at hop; simp at hop; subst hop; rfl
  | some p =>
    rw [hprev] at hop
    by_cases hel : p.start_time + m < now
    · simp only [hel, if_true] at hop
      simp at hop; subst hop; rfl
    · simp only [hel, if_false] at hop
      simp at hop
      rcases hop with h | h
      · subst h; rfl
      · exact runAtTimesLoop_reads code now log sched.run_at_times op h

lemma should_run_now_reads (sched : Schedule) (code : String)
    (put : Option String) (force : Bool) (now : Nat) (log : List CronJobLog) :
    ∀ op ∈ (should_run_now sched code put force now log).2, op.isWrite = false := by
  intro op hop
  simp only [should_run_now] at hop
  by_cases hf : force
  · simp [hf] at hop
  · simp only [hf, if_false] at hop
    cases hm : sched.run_every_mins with
    | none =>
      rw [hm] at hop
      exact runAtTimesLoop_reads code now log sched.run_at_times op hop
    | some m =>
      rw [hm] at hop
      cases hl : latestStart (log.filter fun r => r.code == code) with
      | none =>
        rw [hl] at hop
        simp at hop
        rcases hop with h | h
        · subst h; rfl
        · exact intervalTail_reads sched code m now log op h
      | some lj =>
        rw [hl] at hop
        by_cases hr : (!lj.is_success && optNatTruthy sched.retry_after_failure_mins) = true
        · simp only [hr, if_true] at hop
          by_cases hw : lj.start_time + sched.retry_after_failure_mins.getD 0 < now
          · simp only [hw, if_true] at hop
            simp at hop; subst hop; rfl
          · simp only [hw, if_false] at hop
            simp at hop; subst hop; rfl
        · simp only [Bool.not_eq_true] at hr
          simp only [hr, if_false] at hop
          simp at hop
          rcases hop with h | h
          · subst h; rfl
          · exact intervalTail_reads sched code m now log op h

lemma foldl_applyOp_reads :
    ∀ (ops : List DbOp) (log : List CronJobLog),
      (∀ op ∈ ops, op.isWrite = false) →
      List.foldl applyOp log ops = log := by
  intro ops
  induction ops with
  | nil => intro log _; rfl
  | cons op rest ih =>
    intro log h
    have hop : op.isWrite = false := h op (by simp)
    have happ : applyOp log op = log := by
      cases op <;> simp_all [applyOp, DbOp.isWrite]
    rw [List.foldl_cons, happ]
    exact ih log fun o ho => h o (by simp [ho])

lemma runAtTimesLoop_slot (code : String) (now : Nat) (log : List CronJobLog) :
    ∀ ts d s, (runAtTimesLoop code now log ts).1 = .ok (d, some s) →
      d = true ∧ s ∈ ts := by
  intro ts
  induction ts with
  | nil => intro d s h; simp [runAtTimesLoop] at h
  | cons td rest ih =>
    intro d s h
    simp only [runAtTimesLoop] at h
    cases hp : parseHM td with
    | none => rw [hp] at h; simp at h
    | some ut =>
      rw [hp] at h
      by_cases ht : timeGE (hourOf now, minuteOf now) ut
      · simp only [ht, if_true] at h
        by_cases hq : (log.filter fun r =>
            r.code == code && decide (midnightOf now < r.start_time) &&
              r.ran_at_time == some td).isEmpty
        · simp only [hq, if_true] at h
          simp at h
          exact ⟨h.1, by simp [h.2]⟩
        · simp only [hq, if_false] at h
          have := ih d s h
          exact ⟨this.1, by simp [this.2]⟩
      · simp only [ht, if_false] at h
        have := ih d s h
        exact ⟨this.1, by simp [this.2]⟩

lemma intervalTail_slot (sched : Schedule) (code : String) (m now : Nat)
    (log : List CronJobLog) :
    ∀ d s, (intervalTail sched code m now log).1 = .ok (d, some s) →
      d = true ∧ s ∈ sched.run_at_times := by
  intro d s h
  simp only [intervalTail] at h
  cases hprev : latestStart (log.filter fun r =>
      r.code == code && r.is_success && r.ran_at_time == none) with
  | none => rw [hprev] at h; simp at h
  | some p =>
    rw [hprev] at h
    by_cases hel : p.start_time + m < now
    · simp only [hel, if_true] at h; simp at h
    · simp only [hel, if_false] at h
      exact runAtTimesLoop_slot code now log sched.run_at_times d s h

lemma should_run_now_slot (sched : Schedule) (code : String)
    (put : Option String) (force : Bool) (now : Nat) (log : List CronJobLog) :
    ∀ d s, (should_run_now sched code put force now log).1 = .ok (d, some s) →
      d = true ∧ s ∈ sched.run_at_times := by
  intro d s h
  simp only [should_run_now] at h
  by_cases hf : force
  · simp [hf] at h
  · simp only [hf, if_false] at h
    cases hm : sched.run_every_mins with
    | none =>
      rw [hm] at h
      exact runAtTimesLoop_slot code now log sched.run_at_times d s h
    | some m =>
      rw [hm] at h
      cases hl : latestStart (log.filter fun r => r.code == code) with
      | none =>
        rw [hl] at h
        exact intervalTail_slot sched code m now log d s h
      | some lj =>
        rw [hl] at h
        by_cases hr : (!lj.is_success && optNatTruthy sched.retry_after_failure_mins) = true
        · simp only [hr, if_true] at h
          by_cases hw : lj.start_time + sched.retry_after_failure_mins.getD 0 < now
          · simp only [hw, if_true] at h; simp at h
          · simp only [hw, if_false] at h; simp at h
        · simp only [Bool.not_eq_true] at hr
          simp only [hr, if_false] at h
          exact intervalTail_slot sched code m now log d s h

/-! The claims. -/

/-- C7: for every schedule, run-log history, clock value and stale slot
value, `should_run_now` called with `force = true` decides to run, the
matched fixed-time slot of the decision is absent, and no query is even
issued. -/
theorem c7_force_always_runs (sched : Schedule) (code : String)
    (put : Option String) (now : Nat) (log : List CronJobLog) :
    should_run_now sched code put true now log = (.ok (true, none), []) := rfl

/-- C9: evaluating `should_run_now` only reads from the run log: every
operation in its trace is a read, and replaying the trace over the log
leaves the log unchanged, for every schedule, history, current time and
force flag. -/
theorem c9_should_run_now_only_reads (sched : Schedule) (code : String)
    (put : Option String) (force : Bool) (now : Nat) (log : List CronJobLog) :
    (∀ op ∈ (should_run_now sched code put force now log).2, op.isWrite = false) ∧
    List.foldl applyOp log (should_run_now sched code put force now log).2 = log :=
  ⟨should_run_now_reads sched code put force now log,
   foldl_applyOp_reads _ log (should_run_now_reads sched code put force now log)⟩

/-- C10: `should_run_now` resets the matched fixed-time slot before
evaluating any rule: its result does not depend on the slot value left
by any earlier invocation; with `force` the decision carries no slot;
a slot in the decision can only come from the fixed-time rule (it is a
member of `run_at_times` and the decision is to run), so a decision made
by the force, retry, interval or no-history rule carries none; and a run
whose decision carries no slot writes its record with `ran_at_time`
absent. -/
theorem c10_slot_reset_each_call (sched : Schedule) (code : String)
    (put put' : Option String) (force : Bool) (now : Nat)
    (log : List CronJobLog) :
    (should_run_now sched code put force now log =
      should_run_now sched code put' force now log) ∧
    (force = true →
      (should_run_now sched code put force now log).1 = .ok (true, none)) ∧
    (∀ d s, (should_run_now sched code put force now log).1 = .ok (d, some s) →
      d = true ∧ s ∈ sched.run_at_times) ∧
    (∀ (cls : CronJobClass) (t0 t1 t2 : Nat) (m : String)
        (lg : List CronJobLog),
      cls.is_subclass = true →
      (should_run_now cls.schedule cls.code none force t1 lg).1 = .ok (true, none) →
      cls.do_ = .ok m →
      (runCron cls force t0 t1 t2 lg).2 =
        lg ++ [{ code := cls.code, start_time := t0, end_time := some t2,
                 is_success := true, message := some m, ran_at_time := none }]) := by
  refine ⟨rfl, ?_, should_run_now_slot sched code put force now log, ?_⟩
  · intro h; subst h; rfl
  · intro cls t0 t1 t2 m lg h1 h2 h3
    simp [runCron, runBody, exit_, h1, h2, h3]

/-- C10 witness: at a concrete forced call the stale slot is discarded,
the decision carries no slot, and the record of a forced run has
`ran_at_time` absent. -/
theorem c10_witness :
    (should_run_now { run_every_mins := some 5, run_at_times := ["09:00"] }
        "c" (some "09:00") true 11 [] =
      should_run_now { run_every_mins := some 5, run_at_times := ["09:00"] }
        "c" none true 11 []) ∧
    ((should_run_now { run_every_mins := some 5, run_at_times := ["09:00"] }
        "c" (some "09:00") true 11 []).1 = .ok (true, none)) ∧
    ((runCron { code := "w10", schedule := {}, is_subclass := true,
                do_ := .ok "done" } true 2 3 4 []).2 =
      [{ code := "w10", start_time := 2, end_time := some 4,
         is_success := true, message := some "done", ran_at_time := none }]) := by
  have h := c10_slot_reset_each_call
    { run_every_mins := some 5, run_at_times := ["09:00"] }
    "c" (some "09:00") none true 11 []
  exact ⟨h.1, h.2.1 rfl,
    h.2.2.2 { code := "w10", schedule := {}, is_subclass := true,
              do_ := .ok "done" } 2 3 4 "done" [] rfl rfl rfl⟩

/-- C1: the claim that an exception raised by `do()` never propagates
out of `run` fails on this code: at a job whose `do()` raises, the
manager's `msg` attribute was never assigned, so `__exit__` itself
raises `AttributeError` at `cron_msg = self.msg` before reaching its
failure handling — the caller receives an exception, no failed record
is written, and no diagnostic entry is logged.  This theorem evaluates
the code at such a failing input: the run of a forced job whose `do()`
raises ends with an escaping `AttributeError` and an unchanged
(empty) log. -/
theorem c1_execute_failure_escapes :
    runCron { code := "c1", schedule := {}, is_subclass := true,
              do_ := .error "boom-trace" } true 0 0 5 [] =
      (some (.attributeError "msg"), []) := rfl

/-- C2: evaluated on both outcomes of the execute operation.  When
`do()` returns normally, exactly one new record is appended, with
`end_time = 5 ≥ 3 = start_time` and `succeeded` true.  When `do()`
raises, the claim fails on this code: no record at all is appended
(the `AttributeError` of `__exit__` aborts before `save`), instead of
exactly one failed record. -/
theorem c2_record_roundtrip_eval :
    (runCron { code := "c2", schedule := {}, is_subclass := true,
               do_ := .ok "all good" } true 3 4 5 [] =
      (none, [{ code := "c2", start_time := 3, end_time := some 5,
                is_success := true, message := some "all good",
                ran_at_time := none }])) ∧
    (runCron { code := "c2", schedule := {}, is_subclass := true,
               do_ := .error "tb" } true 3 4 5 [] =
      (some (.attributeError "msg"), [])) := ⟨rfl, rfl⟩

/-- C8: for every argument that is not a valid job type, `run` raises
the invocation error immediately — for every schedule, history, clock
and force flag, so before the schedule is consulted — with the manager
attributes never assigned, and the run after the full lifecycle leaves
the run log unchanged (no record is persisted). -/
theorem c8_invalid_job_class_rejected (cls : CronJobClass) (force : Bool)
    (t0 t1 t2 : Nat) (log : List CronJobLog)
    (h : cls.is_subclass = false) :
    runBody cls force t1 log = ⟨some .invalidJobClass, none, none⟩ ∧
    (runCron cls force t0 t1 t2 log).2 = log := by
  constructor
  · simp [runBody, h]
  · simp [runCron, runBody, exit_, h]

/-- C8 witness: a concrete non-subclass argument is rejected and the
log is untouched. -/
theorem c8_witness :
    ({ code := "bad", schedule := { run_every_mins := some 1 },
       is_subclass := false, do_ := .ok "x" } : CronJobClass).is_subclass
        = false ∧
    runBody { code := "bad", schedule := { run_every_mins := some 1 },
              is_subclass := false, do_ := .ok "x" } false 0 [] =
      ⟨some .invalidJobClass, none, none⟩ ∧
    (runCron { code := "bad", schedule := { run_every_mins := some 1 },
               is_subclass := false, do_ := .ok "x" } false 0 0 1 []).2 = [] := by
  have h := c8_invalid_job_class_rejected
    { code := "bad", schedule := { run_every_mins := some 1 },
      is_subclass := false, do_ := .ok "x" } false 0 0 1 [] rfl
  exact ⟨rfl, h.1, h.2⟩

/-- C3: when the latest record for the code failed and the schedule sets
a positive `retry_after_failure_mins = R` alongside
`run_every_mins = M`, the decision is exactly `now > start_time + R`
(strict), carries no slot, and is independent of `M`, of the fixed
times, and of the rest of the history: the retry check decides
exclusively. -/
theorem c3_retry_window_decides (sched : Schedule) (code : String)
    (put : Option String) (now M R : Nat) (log : List CronJobLog)
    (r : CronJobLog)
    (hM : sched.run_every_mins = some M)
    (hR : sched.retry_after_failure_mins = some R) (hRpos : 0 < R)
    (hlast : latestStart (log.filter fun x => x.code == code) = some r)
    (hfail : r.is_success = false) :
    (should_run_now sched code put false now log).1 =
      .ok (decide (r.start_time + R < now), none) := by
  have hRne : (R != 0) = true := by simp [bne]; omega
  simp only [should_run_now, hM, hlast, Bool.false_eq_true, if_false]
  rw [hfail, hR]
  simp only [optNatTruthy, hRne, Bool.not_false, Bool.and_self, if_true,
    Option.getD_some]
  by_cases hc : r.start_time + R < now <;> simp [hc]

/-- Concrete schedule for the C3 witness: one-minute interval, a
fixed-time entry, ten-minute retry window. -/
def sched3w : Schedule :=
  { run_every_mins := some 1, run_at_times := ["00:00"],
    retry_after_failure_mins := some 10 }

/-- Concrete failed record for the C3 witness. -/
def rec3w : CronJobLog := { code := "c", start_time := 100, is_success := false }

/-- C3 witness: a failed latest record under a 10-minute retry window
blocks exactly until the window passes, at an interval of 1 minute that
would long since permit a run. -/
theorem c3_witness :
    latestStart ([rec3w].filter fun x => x.code == "c") = some rec3w ∧
    rec3w.is_success = false ∧
    (should_run_now sched3w "c" none false 110 [rec3w]).1 = .ok (false, none) ∧
    (should_run_now sched3w "c" none false 111 [rec3w]).1 = .ok (true, none) := by
  refine ⟨rfl, rfl, ?_, ?_⟩
  · have h := c3_retry_window_decides sched3w "c" none 110 1 10 [rec3w] rec3w
      rfl rfl (by decide) rfl rfl
    simpa using h
  · have h := c3_retry_window_decides sched3w "c" none 111 1 10 [rec3w] rec3w
      rfl rfl (by decide) rfl rfl
    simpa using h

lemma string_length_drop (s : String) (n : Nat) :
    (s.drop n).length = s.length - n := by
  show (s.drop n).1.length = s.1.length - n
  rw [String.data_drop]
  exact List.length_drop n s.1

/-- C4: for every failure detail longer than 1000 characters combined
with a 50-character partial status message, the failing `__exit__`
stores exactly one new record whose message is exactly 1000 characters
long and ends with the last 945 characters of the failure detail. -/
theorem c4_failure_message_truncation (cron_log : CronJobLog)
    (ut : Option String) (t2 : Nat) (log : List CronJobLog)
    (pm detail : String) (hpm : pm.length = 50)
    (hd : 1000 < detail.length) :
    ∃ m : String,
      exit_ cron_log (some pm) ut (some (.jobFailure detail)) t2 log =
        (none, log ++ [{ cron_log with is_success := false,
                                       message := some m,
                                       ran_at_time := ut,
                                       end_time := some t2 }]) ∧
      m.length = 1000 ∧
      m = (pm ++ "\n...\n") ++ strTakeRight detail 945 ∧
      (strTakeRight detail 945).length = 945 := by
  have hne : (pm != "") = true := by
    rw [bne_iff_ne]
    intro h
    rw [h] at hpm
    exact absurd hpm (by decide)
  have htail : pySliceFrom detail (-(1000 - (pm.length : Int) - 5)) =
      strTakeRight detail 945 := by
    rw [hpm]
    norm_num [pySliceFrom, strTakeRight]
    rfl
  have hlen : (strTakeRight detail 945).length = 945 := by
    unfold strTakeRight
    rw [string_length_drop]
    omega
  refine ⟨(pm ++ "\n...\n") ++ strTakeRight detail 945, ?_, ?_, rfl, hlen⟩
  · simp only [exit_, formatExc, hne, if_true]
    rw [htail]
  · rw [String.length_append, String.length_append, hlen, hpm]
    rfl

/-- Concrete 50-character status message for the C4 witness. -/
def pm4w : String := String.mk (List.replicate 50 'p')

/-- Concrete 1001-character failure detail for the C4 witness. -/
def detail4w : String := String.mk (List.replicate 1001 'x')

/-- C4 witness: the truncation property at a concrete 50-character
message and 1001-character failure detail. -/
theorem c4_witness :
    pm4w.length = 50 ∧ 1000 < detail4w.length ∧
    ∃ m : String,
      exit_ { code := "c4", start_time := 0 } (some pm4w) none
          (some (.jobFailure detail4w)) 9 [] =
        (none, [{ code := "c4", start_time := 0, end_time := some 9,
                  is_success := false, message := some m,
                  ran_at_time := none }]) ∧
      m.length = 1000 ∧
      m = (pm4w ++ "\n...\n") ++ strTakeRight detail4w 945 ∧
      (strTakeRight detail4w 945).length = 945 := by
  have h50 : pm4w.length = 50 := by
    show (List.replicate 50 'p').length = 50
    simp
  have h1001 : 1000 < detail4w.length := by
    show 1000 < (List.replicate 1001 'x').length
    simp
  exact ⟨h50, h1001,
    c4_failure_message_truncation { code := "c4", start_time := 0 } none 9 []
      pm4w detail4w h50 h1001⟩

/-- C6: for the fixed-time schedule `["09:00"]` with no interval, over
histories whose records all start at or before `now`: when no record of
the code is tagged with slot `"09:00"` on the current calendar day and
the current time of day is at or past 09:00, the decision is to run
with matched slot `"09:00"`; and once a record of the code tagged
`"09:00"` exists on the current day (started at or after 09:00, as a
record written by a 09:00-slot run is), any further call decides not to
run — each slot fires at most once per calendar day. -/
theorem c6_fixed_time_once_per_day (sched : Schedule) (code : String)
    (put : Option String) (now : Nat) (log : List CronJobLog)
    (hI : sched.run_every_mins = none)
    (hT : sched.run_at_times = ["09:00"]) :
    ((∀ r ∈ log, r.start_time ≤ now) →
     (∀ r ∈ log, r.code = code → r.ran_at_time = some "09:00" →
        r.start_time / 1440 ≠ now / 1440) →
     9 ≤ hourOf now →
     (should_run_now sched code put false now log).1 =
       .ok (true, some "09:00")) ∧
    (∀ r ∈ log, r.code = code → r.ran_at_time = some "09:00" →
      r.start_time / 1440 = now / 1440 → 540 ≤ r.start_time % 1440 →
      (should_run_now sched code put false now log).1 = .ok (false, none)) := by
  have hp : parseHM "09:00" = some (9, 0) := by decide
  constructor
  · intro hpast hnone hhour
    have ht : timeGE (hourOf now, minuteOf now) (9, 0) = true := by
      simp only [timeGE, Bool.or_eq_true, decide_eq_true_eq, Bool.and_eq_true,
        beq_iff_eq]
      omega
    have hq : (log.filter fun r =>
        r.code == code && decide (midnightOf now < r.start_time) &&
          r.ran_at_time == some "09:00") = [] := by
      rw [List.filter_eq_nil_iff]
      intro r hr
      simp only [Bool.and_eq_true, beq_iff_eq, decide_eq_true_eq, not_and]
      intro h1
      exact fun hslot => hnone r hr h1.1 hslot
        (by
          have hle := hpast r hr
          have hmid := h1.2
          unfold midnightOf at hmid
          omega)
    simp only [should_run_now, hI, hT, Bool.false_eq_true, if_false,
      runAtTimesLoop, hp, ht, if_true, hq, List.isEmpty_nil]
  · intro r hr hcode hslot hday htod
    simp only [should_run_now, hI, hT, Bool.false_eq_true, if_false,
      runAtTimesLoop, hp]
    by_cases ht : timeGE (hourOf now, minuteOf now) (9, 0) = true
    · have hmem : r ∈ log.filter fun x =>
          x.code == code && decide (midnightOf now < x.start_time) &&
            x.ran_at_time == some "09:00" := by
        rw [List.mem_filter]
        refine ⟨hr, ?_⟩
        simp only [Bool.and_eq_true, beq_iff_eq, decide_eq_true_eq]
        refine ⟨⟨hcode, ?_⟩, hslot⟩
        unfold midnightOf
        omega
      have hq : (log.filter fun x =>
          x.code == code && decide (midnightOf now < x.start_time) &&
            x.ran_at_time == some "09:00").isEmpty = false := by
        rcases hem : (log.filter fun x =>
            x.code == code && decide (midnightOf now < x.start_time) &&
              x.ran_at_time == some "09:00").isEmpty with _ | _
        · exact hem
        · rw [List.isEmpty_iff] at hem
          rw [hem] at hmem
          simp at hmem
      simp [ht, hq]
    · simp [ht]

/-- Concrete schedule for the C6 witness. -/
def sched6w : Schedule := { run_at_times := ["09:00"] }

/-- Concrete already-ran-today record for the C6 witness: started on day
zero at 09:00 and tagged with slot "09:00". -/
def rec6w : CronJobLog :=
  { code := "c", start_time := 540, end_time := some 541,
    is_success := true, message := some "", ran_at_time := some "09:00" }

/-- C6 witness: on day zero at 09:00 with an empty history the decision
is to run with the slot; at 10:00 with the slot already recorded today
the decision is not to run. -/
theorem c6_witness :
    (should_run_now sched6w "c" none false 540 []).1 =
      .ok (true, some "09:00") ∧
    (should_run_now sched6w "c" none false 600 [rec6w]).1 =
      .ok (false, none) := by
  constructor
  · exact (c6_fixed_time_once_per_day sched6w "c" none 540 [] rfl rfl).1
      (by simp) (by simp) (by decide)
  · exact (c6_fixed_time_once_per_day sched6w "c" none 600 [rec6w] rfl rfl).2
      rec6w (by simp) rfl rfl (by decide) (by decide)

/-- Invariant relating the running maximum over a list to the running
maximum over its `p`-filtered sublist: the filtered maximum never
exceeds the full one, and when the full maximum satisfies `p` the two
coincide. -/
def stepInv (p : CronJobLog → Bool) :
    Option CronJobLog → Option CronJobLog → Prop
  | none, none => True
  | none, some _ => False
  | some a, none => p a = false
  | some a, some f => f.start_time ≤ a.start_time ∧ (p a = true → f = a)

lemma stepInv_step (p : CronJobLog → Bool) (acc facc : Option CronJobLog)
    (x : CronJobLog) (h : stepInv p acc facc) :
    stepInv p (latestStep acc x)
      (if p x = true then latestStep facc x else facc) := by
  cases acc with
  | none =>
    cases facc with
    | none =>
      cases hx : p x
      · simp [stepInv, latestStep, hx]
      · simp [stepInv, latestStep, hx]
    | some f => exact absurd h (by simp [stepInv])
  | some a =>
    cases facc with
    | none =>
      have hpa : p a = false := h
      cases hx : p x
      · by_cases hlt : a.start_time < x.start_time
        · simp [stepInv, latestStep, hx, hlt]
        · simp [stepInv, latestStep, hx, hlt, hpa]
      · by_cases hlt : a.start_time < x.start_time
        · simp [stepInv, latestStep, hx, hlt]
        · simp [stepInv, latestStep, hx, hlt, hpa]
          omega
    | some f =>
      obtain ⟨hle, himp⟩ := h
      cases hx : p x
      · by_cases hlt : a.start_time < x.start_time
        · simp [stepInv, latestStep, hx, hlt]
          omega
        · simp [stepInv, latestStep, hx, hlt]
          exact ⟨hle, himp⟩
      · by_cases hlt : a.start_time < x.start_time
        · have hfl : f.start_time < x.start_time := by omega
          simp [stepInv, latestStep, hx, hlt, hfl]
        · by_cases hfl : f.start_time < x.start_time
          · simp [stepInv, latestStep, hx, hlt, hfl]
            constructor
            · omega
            · intro hpa
              have hfa := himp hpa
              rw [hfa] at hfl
              omega
          · simp [stepInv, latestStep, hx, hlt, hfl]
            exact ⟨hle, himp⟩

lemma foldl_filter_latest (p : CronJobLog → Bool) :
    ∀ (l : List CronJobLog) (acc facc : Option CronJobLog),
      stepInv p acc facc →
      stepInv p (l.foldl latestStep acc)
        ((l.filter p).foldl latestStep facc) := by
  intro l
  induction l with
  | nil => intro acc facc h; simpa using h
  | cons x xs ih =>
    intro acc facc h
    have hstep := stepInv_step p acc facc x h
    rw [List.foldl_cons]
    cases hx : p x
    · rw [List.filter_cons_of_neg (by simp [hx])]
      rw [hx] at hstep
      simp only [Bool.false_eq_true, if_false] at hstep
      exact ih (latestStep acc x) facc hstep
    · rw [List.filter_cons_of_pos hx, List.foldl_cons]
      rw [hx] at hstep
      simp only [if_true] at hstep
      exact ih (latestStep acc x) (latestStep facc x) hstep

/-- When the latest-by-start row of a list satisfies `p`, it is also the
latest-by-start row of the `p`-filtered list. -/
lemma latestStart_filter_of_latest (l : List CronJobLog)
    (p : CronJobLog → Bool) (r : CronJobLog)
    (hl : latestStart l = some r) (hp : p r = true) :
    latestStart (l.filter p) = some r := by
  have h := foldl_filter_latest p l none none trivial
  rw [latestStart] at hl
  rw [hl] at h
  rw [latestStart]
  cases hf : (l.filter p).foldl latestStep none with
  | none =>
    rw [hf] at h
    have : p r = false := h
    rw [this] at hp
    exact absurd hp (by simp)
  | some f =>
    rw [hf] at h
    obtain ⟨_, himp⟩ := h
    rw [himp hp]

/-- Concrete record refuting C5 as stated: the latest (indeed only)
record for the code succeeded, but it is tagged with a fixed-time slot. -/
def rec5c : CronJobLog :=
  { code := "c", start_time := 100, end_time := some 100,
    is_success := true, message := some "", ran_at_time := some "09:00" }

/-- C5 counterexample: with `run_every_mins = 10` and no fixed times
configured, a history whose latest record succeeded zero minutes ago —
but tagged with a slot — makes `should_run_now` return true, although
the claim requires false whenever fewer than `M` minutes elapsed since
the latest record's `start_time`.  (The interval comparison uses the
most recent *successful, non-fixed-time* record, of which there is
none here, so the code runs immediately.) -/
theorem c5_counterexample :
    latestStart ([rec5c].filter fun x => x.code == "c") = some rec5c ∧
    rec5c.is_success = true ∧
    100 - rec5c.start_time < 10 ∧
    (should_run_now { run_every_mins := some 10 } "c" none false 100
        [rec5c]).1 = .ok (true, none) :=
  ⟨rfl, rfl, by decide, rfl⟩

/-- C5 amended: for every code with `run_every_mins = M` set and no
fixed times configured, whose latest record succeeded *and carries no
fixed-time tag*, the decision is exactly `now > start_time + M`
(strict greater-than boundary: at exactly `M` elapsed minutes it does
not run). -/
theorem c5_interval_strict_boundary (sched : Schedule) (code : String)
    (put : Option String) (now M : Nat) (log : List CronJobLog)
    (r : CronJobLog)
    (hM : sched.run_every_mins = some M)
    (hfx : sched.run_at_times = [])
    (hlast : latestStart (log.filter fun x => x.code == code) = some r)
    (hsucc : r.is_success = true) (huntag : r.ran_at_time = none) :
    (should_run_now sched code put false now log).1 =
      .ok (decide (r.start_time + M < now), none) := by
  have hPr : (fun x : CronJobLog => x.is_success && x.ran_at_time == none) r
      = true := by
    simp [hsucc, huntag]
  have hprev0 := latestStart_filter_of_latest
    (log.filter fun x => x.code == code)
    (fun x => x.is_success && x.ran_at_time == none) r hlast hPr
  rw [List.filter_filter] at hprev0
  have hfeq : (log.filter fun a =>
      (a.is_success && a.ran_at_time == none) && (a.code == code)) =
      log.filter fun x =>
        x.code == code && x.is_success && x.ran_at_time == none := by
    apply List.filter_congr
    intro a _
    rw [Bool.and_comm, Bool.and_assoc]
  rw [hfeq] at hprev0
  simp only [should_run_now, hM, hlast, Bool.false_eq_true, if_false,
    hsucc, Bool.not_true, Bool.false_and, intervalTail, hprev0, hfx,
    runAtTimesLoop]
  by_cases hc : r.start_time + M < now <;> simp [hc]

/-- Concrete record for the C5 witness: latest, successful, untagged. -/
def rec5w : CronJobLog := { code := "c", start_time := 100, is_success := true }

/-- C5 witness (for the amended claim): ten minutes after a successful
untagged run the decision is still false; eleven minutes after, true. -/
theorem c5_witness :
    latestStart ([rec5w].filter fun x => x.code == "c") = some rec5w ∧
    rec5w.is_success = true ∧ rec5w.ran_at_time = none ∧
    (should_run_now { run_every_mins := some 10 } "c" none false 110
        [rec5w]).1 = .ok (false, none) ∧
    (should_run_now { run_every_mins := some 10 } "c" none false 111
        [rec5w]).1 = .ok (true, none) := by
  refine ⟨rfl, rfl, rfl, ?_, ?_⟩
  · have h := c5_interval_strict_boundary { run_every_mins := some 10 }
      "c" none 110 10 [rec5w] rec5w rfl rfl rfl rfl rfl
    simpa using h
  · have h := c5_interval_strict_boundary { run_every_mins := some 10 }
      "c" none 111 10 [rec5w] rec5w rfl rfl rfl rfl rfl
    simpa using h

end DjangoCron
